import Mathlib

/-
Verification of the igent agent orchestrator and context/memory manager.

This file shallowly embeds the Go sources of the igent repository:
  * `internal/llm` message/response data model,
  * the `internal/memory` Manager (context assembly, memory recall,
    sliding window, summarization and extraction),
  * the `internal/tools` Registry (Execute, ParseToolCall and the
    default executors),
  * the `internal/agent` ChatStream tool-calling loop.

Modelling conventions:
  * Go `float64` relevance values and scores are modelled by exact
    rationals (`ℚ`); the thresholds 0.3, 0.2, 0.1, 0.7, 1.0 used by the
    code are exactly representable and the claims are stated in exact
    arithmetic.
  * Go `int` is modelled by `Int` (no arithmetic here approaches 2^63).
  * Time stamps are opaque `Nat` parameters; generated ids are opaque
    `String` parameters (the code derives them from the clock).
  * External effects (the LLM provider, JSON decoding, the OS behind the
    tool executors, the store) are oracles passed in explicitly; the
    functions return the list of store writes they perform instead of
    mutating shared state.
  * Go's `sort.Slice` is an unstable sort; it is modelled by
    `List.insertionSort` with the same ordering.  Go's `strings.ToLower`
    / `unicode.IsSpace` are modelled by `String.toLower` /
    `Char.isWhitespace` (they agree on ASCII).
-/

namespace Igent

/-- Characters of `needle` occur at the start of `hay`
(helper for Go `strings.Contains`). -/
def leadsChars : List Char → List Char → Bool
  | [], _ => true
  | _ :: _, [] => false
  | a :: as, b :: bs => a == b && leadsChars as bs

/-- Go `strings.Contains hay needle`: `needle` occurs contiguously in `hay`. -/
def containsChars (needle : List Char) : List Char → Bool
  | [] => leadsChars needle []
  | c :: t => leadsChars needle (c :: t) || containsChars needle t

/-- Go `strings.Contains` on strings. -/
def strContains (s sub : String) : Bool :=
  containsChars sub.data s.data

/-- Drop leading whitespace characters. -/
def dropWS : List Char → List Char
  | [] => []
  | c :: rest => if c.isWhitespace then dropWS rest else c :: rest

/-- Go `strings.TrimSpace`: drop whitespace from both ends. -/
def strTrim (s : String) : String :=
  String.mk ((dropWS ((dropWS s.data).reverse)).reverse)

/-- Go `strings.ToLower`, character-wise (they agree on ASCII). -/
def strLower (s : String) : String :=
  String.mk (s.data.map Char.toLower)

/-- Go `strings.ToUpper`, character-wise (they agree on ASCII). -/
def strUpper (s : String) : String :=
  String.mk (s.data.map Char.toUpper)

/-- Go `strings.Split` with a one-character separator. -/
def splitOnChar (sep : Char) : List Char → List (List Char)
  | [] => [[]]
  | c :: rest =>
    if c = sep then [] :: splitOnChar sep rest
    else
      match splitOnChar sep rest with
      | [] => [[c]]
      | l :: ls => (c :: l) :: ls

/-- Go `strings.Split(s, "\n")`. -/
def strSplitLines (s : String) : List String :=
  (splitOnChar (Char.ofNat 10) s.data).map String.mk

/-- Accumulating loop behind `strings.Fields`. -/
def fieldsAux : List Char → List Char → List String
  | [], acc => if acc.isEmpty then [] else [String.mk acc.reverse]
  | c :: rest, acc =>
    if c.isWhitespace then
      if acc.isEmpty then fieldsAux rest []
      else String.mk acc.reverse :: fieldsAux rest []
    else fieldsAux rest (c :: acc)

/-- Go `strings.Fields`: split on whitespace runs, dropping empty pieces. -/
def fields (s : String) : List String :=
  fieldsAux s.data []

/-- Message of the llm package: role, content, optional tool calls
(assistant messages), tool call id and tool name (tool messages). -/
structure ToolCallFunction where
  name : String
  arguments : String
deriving DecidableEq, Repr

/-- llm.ToolCall: a tool invocation requested by the model. -/
structure LLMToolCall where
  id : String
  type : String
  function : Option ToolCallFunction
deriving DecidableEq, Repr

/-- llm.Message. -/
structure Message where
  role : String
  content : String
  toolCalls : List LLMToolCall
  toolCallID : String
  name : String
deriving DecidableEq, Repr

/-- llm.Response. -/
structure Response where
  content : String
  toolCalls : List LLMToolCall
  tokensUsed : Int
  finishReason : String
deriving DecidableEq, Repr

/-- llm.Response.HasToolCalls: `len(r.ToolCalls) > 0`. -/
def Response.hasToolCalls (r : Response) : Bool :=
  decide (0 < r.toolCalls.length)

/-- storage.Conversation. -/
structure Conversation where
  id : String
  createdAt : Nat
  updatedAt : Nat
  messages : List Message
  summary : String
deriving DecidableEq, Repr

/-- storage.MemoryItem; `relevance` is the stored importance in [0,1]. -/
structure MemoryItem where
  id : String
  content : String
  type : String
  createdAt : Nat
  relevance : ℚ
deriving DecidableEq, Repr

/-! ### Memory manager (the logging variant of memory.Manager) -/

/-- Number of query words longer than 3 bytes occurring as case-insensitive
substrings of the memory content (the inner loop of getRelevantMemories,
which adds 0.2 per match; both arguments are already lowercased). -/
def memMatchCount (queryLower contentLower : String) : Nat :=
  (fields queryLower).countP
    (fun word => decide (3 < word.utf8ByteSize) && strContains contentLower word)

/-- Keyword score of a memory for a query:
`score = matchCount * 0.2` then `score = score * mem.relevance`. -/
def memScore (query : String) (mem : MemoryItem) : ℚ :=
  ((memMatchCount (strLower query) (strLower mem.content) : ℚ) * (1/5)) * mem.relevance

/-- A memory survives the scan of getRelevantMemories: it is not skipped by
the `relevance < 0.3` guard and its computed score exceeds 0.1. -/
def memKeep (query : String) (mem : MemoryItem) : Bool :=
  !(decide (mem.relevance < 3/10)) && decide ((1 : ℚ)/10 < memScore query mem)

/-- Ordering used by the `sort.Slice` call: stored relevance descending. -/
def relGE (a b : MemoryItem) : Prop := b.relevance ≤ a.relevance

instance : DecidableRel relGE :=
  fun a b => inferInstanceAs (Decidable (b.relevance ≤ a.relevance))

instance : IsTotal MemoryItem relGE :=
  ⟨fun a b => le_total b.relevance a.relevance⟩

instance : IsTrans MemoryItem relGE :=
  ⟨fun _ _ _ h1 h2 => le_trans h2 h1⟩

/-- memory.Manager.getRelevantMemories on an already-loaded memory list:
filter by the `relevance ≥ 0.3` and `score > 0.1` scan, sort by stored
relevance descending, cap to the top 5. -/
def getRelevantMemories (memories : List MemoryItem) (query : String) :
    List MemoryItem :=
  (List.insertionSort relGE (memories.filter (memKeep query))).take 5

/-- memory.Manager.formatMemories. -/
def formatMemories (memories : List MemoryItem) : String :=
  String.intercalate "\n"
    (memories.map (fun mem => "- [" ++ mem.type ++ "] " ++ mem.content))

/-- Inner loop of getRecentMessages: walk conversation messages from newest
to oldest (the input list is already reversed), prepending into `recent`
while the token budget and the message cap allow. -/
def gatherRecent (countTokens : List Message → Int) (budget : Int)
    (maxMessages : Nat) : List Message → Int → List Message → List Message
  | [], _, recent => recent
  | msg :: restNewest, tokenCount, recent =>
    let msgTokens := countTokens [msg]
    if budget < tokenCount + msgTokens then recent
    else
      let recent1 := msg :: recent
      if maxMessages ≤ recent1.length then recent1
      else gatherRecent countTokens budget maxMessages restNewest
        (tokenCount + msgTokens) recent1

/-- memory.Manager.getRecentMessages: sliding recency window followed by the
new user message.  `countTokens` is the provider's CountTokens. -/
def getRecentMessages (countTokens : List Message → Int) (maxMessages : Nat)
    (maxTokens : Int) (messages : List Message) (newUserMessage : String) :
    List Message :=
  let result : List Message := [⟨"user", newUserMessage, [], "", ""⟩]
  let budget := maxTokens - countTokens result - 500
  gatherRecent countTokens budget maxMessages messages.reverse 0 [] ++ result

/-- memory.Manager.BuildContext, message-assembly part.  `loadedMemories` is
the result of store.LoadMemories (`none` models a load error, in which case
the memory block is skipped). -/
def buildContextMessages (countTokens : List Message → Int) (maxMessages : Nat)
    (maxTokens : Int) (loadedMemories : Option (List MemoryItem))
    (conv : Conversation) (userMessage : String) : List Message :=
  let memPart : List Message :=
    match loadedMemories with
    | none => []
    | some mems =>
      let memories := getRelevantMemories mems userMessage
      if 0 < memories.length then
        let memoryContext := formatMemories memories
        if memoryContext ≠ "" then
          [⟨"system", "Relevant context from memory:\n" ++ memoryContext, [], "", ""⟩]
        else []
      else []
  let sumPart : List Message :=
    if conv.summary ≠ "" then
      [⟨"system", "Previous conversation summary: " ++ conv.summary, [], "", ""⟩]
    else []
  memPart ++ sumPart ++
    getRecentMessages countTokens maxMessages maxTokens conv.messages userMessage

/-- memory.Manager.BuildContext, summarization-trigger part: the background
passes spawned by the turn (`go m.summarizeConversation(conv)` when
`len(conv.Messages) ≥ m.summarizeWhen`). -/
def buildContextSpawns (summarizeWhen : Nat) (conv : Conversation) :
    List Conversation :=
  if summarizeWhen ≤ conv.messages.length then [conv] else []

/-- Split a character list at the first colon (Go `strings.SplitN(s, ":", 2)`
restricted to the two-part success case; `none` when no colon occurs). -/
def splitFirstColon : List Char → Option (List Char × List Char)
  | [] => none
  | c :: rest =>
    if c = ':' then some ([], rest)
    else (splitFirstColon rest).map (fun p => (c :: p.1, p.2))

/-- Line loop of memory.Manager.extractMemories: trim each line, skip empty
lines and lines without a colon, default unrecognized type tokens to
"fact", and build one MemoryItem with relevance 0.7 per accepted line.
`idGen k` models the k-th generateID() call, `now` the clock. -/
def extractLoop (idGen : Nat → String) (now : Nat) :
    List String → Nat → List MemoryItem
  | [], _ => []
  | line :: rest, k =>
    let line1 := strTrim line
    if line1 = "" then extractLoop idGen now rest k
    else
      match splitFirstColon line1.data with
      | none => extractLoop idGen now rest k
      | some p =>
        let memType0 := strTrim (String.mk p.1)
        let content1 := strTrim (String.mk p.2)
        let memType :=
          if memType0 ≠ "fact" ∧ memType0 ≠ "preference" ∧ memType0 ≠ "context"
          then "fact" else memType0
        ⟨idGen k, content1, memType, now, 7/10⟩ :: extractLoop idGen now rest (k + 1)

/-- memory.Manager.extractMemories: the memories persisted from the
extraction provider response (`.error` models a provider failure, which is
swallowed). -/
def extractMemories (idGen : Nat → String) (now : Nat)
    (extractResp : Except String String) : List MemoryItem :=
  match extractResp with
  | .error _ => []
  | .ok content => extractLoop idGen now (strSplitLines content) 0

/-- Outcome of one summarizeConversation pass: the resulting conversation
value, the conversation saves it performed, the memories persisted by the
follow-up extraction, and the batch of messages that was summarized. -/
structure SummarizeResult where
  conv : Conversation
  saves : List Conversation
  extracted : List MemoryItem
  batch : List Message
deriving DecidableEq, Repr

/-- memory.Manager.summarizeConversation (followed by extractMemories).
`summaryResp` / `extractResp` are the two provider replies; a no-op pass
returns the conversation unchanged with no saves. -/
def summarizeConversation (summarizeWhen : Nat) (now : Nat)
    (idGen : Nat → String) (summaryResp extractResp : Except String String)
    (conv : Conversation) : SummarizeResult :=
  if conv.messages.length < summarizeWhen then ⟨conv, [], [], []⟩
  else
    let keepCount := 10
    if conv.messages.length ≤ keepCount then ⟨conv, [], [], []⟩
    else
      let toSummarize := conv.messages.take (conv.messages.length - keepCount)
      match summaryResp with
      | .error _ => ⟨conv, [], [], []⟩
      | .ok s =>
        let conv1 : Conversation :=
          { conv with
              summary := s
              messages := conv.messages.drop (conv.messages.length - keepCount)
              updatedAt := now }
        ⟨conv1, [conv1], extractMemories idGen now extractResp, toSummarize⟩

/-- memory.Manager.AddMemory: manual addition, relevance 1.0, no relevance
scoring and no type validation. -/
def addMemory (genId : String) (now : Nat) (content memType : String) :
    MemoryItem :=
  ⟨genId, content, memType, now, 1⟩

/-! ### Tool registry (internal/tools) -/

/-- Decoded JSON value (the result of json.Unmarshal into
map[string]interface defaults: strings, float64 numbers, bools, null,
arrays and nested objects). -/
inductive JsonVal where
  | str (s : String)
  | num (q : ℚ)
  | bool (b : Bool)
  | null
  | arr (elems : List JsonVal)
  | obj (entries : List (String × JsonVal))

/-- Decoded tool arguments (Go map[string]interface with unique keys). -/
def Args := List (String × JsonVal)

/-- Go type assertion `args[key].(string)`. -/
def argStr (args : Args) (key : String) : Option String :=
  match List.lookup key args with
  | some (JsonVal.str s) => some s
  | _ => none

/-- Go type assertion `args[key].(float64)`. -/
def argNum (args : Args) (key : String) : Option ℚ :=
  match List.lookup key args with
  | some (JsonVal.num q) => some q
  | _ => none

/-- Go type assertion `args[key].(map[string]interface)`. -/
def argObj (args : Args) (key : String) : Option (List (String × JsonVal)) :=
  match List.lookup key args with
  | some (JsonVal.obj entries) => some entries
  | _ => none

/-- tools.getBool: boolean argument with a default. -/
def getBool (args : Args) (key : String) (dflt : Bool) : Bool :=
  match List.lookup key args with
  | some (JsonVal.bool b) => b
  | _ => dflt

/-- Go conversion `int(f)` from float64: truncation toward zero. -/
def ratTruncate (q : ℚ) : Int :=
  q.num.tdiv (q.den : Int)

/-- Bytewise Go slice `s[:n]` on UTF-8 data, cutting at the last rune
boundary not beyond byte n. -/
def takeBytes : Nat → List Char → List Char
  | _, [] => []
  | n, c :: cs => if c.utf8Size ≤ n then c :: takeBytes (n - c.utf8Size) cs else []

/-- Truncation used by runCommand and the shell tool: keep the first
`limit` bytes, appending `suffix`, when the string is longer than
`limit` bytes. -/
def truncateBytes (limit : Nat) (suffix s : String) : String :=
  if limit < s.utf8ByteSize then String.mk (takeBytes limit s.data) ++ suffix else s

/-- Completion of `/bin/sh -c cmd` under the shell tool's timeout. -/
inductive ShellOutcome where
  | timedOut
  | completed (output : String) (errMsg : Option String)

/-- Oracle for the operating-system effects behind the default executors.
`runCmd` models exec.Command(...).CombinedOutput() as (combined output,
optional error message); `readFile` / `getwdResult` carry the underlying
message of the *PathError / SyscallError Go wraps them in. -/
structure ToolEnv where
  formatTime : String → String
  runCmd : String → List String → String × Option String
  readFile : String → Except String String
  getwdResult : Except String String
  environ : List String
  shellExec : String → Int → ShellOutcome

/-- tools.runCommand: run the command, wrap a failure as
"command failed: ...", trim and truncate a success to 10000 bytes. -/
def runCommand (env : ToolEnv) (name : String) (cmdArgs : List String) :
    Except String String :=
  match env.runCmd name cmdArgs with
  | (_, some e) => .error ("command failed: " ++ e)
  | (output, none) => .ok (truncateBytes 10000 "\n... (output truncated)" (strTrim output))

/-- Executor of the `date` tool (time.RFC1123 is the default format). -/
def dateExec (env : ToolEnv) (args : Args) : Except String String :=
  let format :=
    match argStr args "format" with
    | some f => if f ≠ "" then f else "Mon, 02 Jan 2006 15:04:05 MST"
    | none => "Mon, 02 Jan 2006 15:04:05 MST"
  .ok (env.formatTime format)

/-- Executor of the `ls` tool. -/
def lsExec (env : ToolEnv) (args : Args) : Except String String :=
  let path :=
    match argStr args "path" with
    | some p => if p ≠ "" then p else "."
    | none => "."
  let cmdArgs :=
    (if getBool args "long" true then ["-l"] else []) ++
    (if getBool args "all" false then ["-a"] else []) ++ [path]
  runCommand env "ls" cmdArgs

/-- Executor of the `cat` tool; an os.ReadFile failure is the *PathError
"open path: msg". -/
def catExec (env : ToolEnv) (args : Args) : Except String String :=
  match argStr args "path" with
  | none => .error "path is required"
  | some path =>
    if path = "" then .error "path is required"
    else
      match env.readFile path with
      | .error msg => .error ("open " ++ path ++ ": " ++ msg)
      | .ok data =>
        let lines := strSplitLines data
        if 1000 < lines.length then
          .ok (String.intercalate "\n" (lines.take 1000) ++
            "\n... (truncated, file has more lines)")
        else .ok data

/-- Executor of the `pwd` tool; an os.Getwd failure is the SyscallError
"getwd: msg". -/
def pwdExec (env : ToolEnv) (_args : Args) : Except String String :=
  match env.getwdResult with
  | .error msg => .error ("getwd: " ++ msg)
  | .ok d => .ok d

/-- Executor of the `ps` tool. -/
def psExec (env : ToolEnv) (args : Args) : Except String String :=
  let cmdArgs :=
    if getBool args "all" false then ["-e", "-o", "pid,pcpu,pmem,comm"]
    else ["-o", "pid,pcpu,pmem,comm"]
  runCommand env "ps" cmdArgs

/-- Executor of the `curl` tool.  Header map iteration order is modelled by
the entry-list order. -/
def curlExec (env : ToolEnv) (args : Args) : Except String String :=
  match argStr args "url" with
  | none => .error "url is required"
  | some url =>
    if url = "" then .error "url is required"
    else
      let a1 := ["-s", "-i"]
      let a2 := a1 ++
        (match argStr args "method" with
         | some m => if m ≠ "" then ["-X", strUpper m] else []
         | none => [])
      let a3 :=
        match argObj args "headers" with
        | some hs =>
          List.foldl
            (fun acc kv =>
              match kv.2 with
              | JsonVal.str vs => acc ++ ["-H", kv.1 ++ ": " ++ vs]
              | _ => acc)
            a2 hs
        | none => a2
      let a4 := a3 ++
        (match argStr args "data" with
         | some d => if d ≠ "" then ["-d", d] else []
         | none => [])
      let timeout : Int :=
        match argNum args "timeout" with
        | some q => ratTruncate q
        | none => 30
      runCommand env "curl" (a4 ++ ["--max-time", toString timeout] ++ [url])

/-- Executor of the `which` tool. -/
def whichExec (env : ToolEnv) (args : Args) : Except String String :=
  match argStr args "command" with
  | none => .error "command is required"
  | some cmd =>
    if cmd = "" then .error "command is required"
    else runCommand env "which" [cmd]

/-- Executor of the `echo` tool (no emptiness check on the text). -/
def echoExec (_env : ToolEnv) (args : Args) : Except String String :=
  match argStr args "text" with
  | none => .error "text is required"
  | some text => .ok text

/-- Executor of the `env` tool. -/
def envExec (env : ToolEnv) (args : Args) : Except String String :=
  let filter := (argStr args "filter").getD ""
  let result := env.environ.filter
    (fun e => filter = "" || strContains (strLower e) (strLower filter))
  .ok (String.intercalate "\n" result)

/-- Line count shared by `head` and `tail`: default 10, positive floats
truncated to int and capped at 100. -/
def headTailLines (args : Args) : Int :=
  match argNum args "lines" with
  | some q =>
    if 0 < q then
      let l := ratTruncate q
      if 100 < l then 100 else l
    else 10
  | none => 10

/-- Executor of the `head` tool. -/
def headExec (env : ToolEnv) (args : Args) : Except String String :=
  match argStr args "path" with
  | none => .error "path is required"
  | some path =>
    if path = "" then .error "path is required"
    else runCommand env "head" ["-n", toString (headTailLines args), path]

/-- Executor of the `tail` tool. -/
def tailExec (env : ToolEnv) (args : Args) : Except String String :=
  match argStr args "path" with
  | none => .error "path is required"
  | some path =>
    if path = "" then .error "path is required"
    else runCommand env "tail" ["-n", toString (headTailLines args), path]

/-- Executor of the `df` tool. -/
def dfExec (env : ToolEnv) (args : Args) : Except String String :=
  runCommand env "df" (if getBool args "human" true then ["-h"] else [])

/-- Executor of the `uname` tool. -/
def unameExec (env : ToolEnv) (args : Args) : Except String String :=
  if getBool args "all" true then runCommand env "uname" ["-a"]
  else runCommand env "uname" []

/-- Timeout of the `shell` tool: default 30, positive floats truncated to
int and capped at 120. -/
def shellTimeout (args : Args) : Int :=
  match argNum args "timeout" with
  | some q =>
    if 0 < q then
      let t := ratTruncate q
      if 120 < t then 120 else t
    else 30
  | none => 30

/-- Executor of the `shell` tool. -/
def shellExecutor (env : ToolEnv) (args : Args) : Except String String :=
  match argStr args "command" with
  | none => .error "command is required"
  | some command =>
    if command = "" then .error "command is required"
    else
      let timeout : Int := shellTimeout args
      match env.shellExec command timeout with
      | .timedOut =>
        .error ("command timed out after " ++ toString timeout ++ " seconds")
      | .completed _ (some e) => .error ("command failed: " ++ e)
      | .completed output none =>
        .ok (truncateBytes 15000 "\n... (output truncated)" (strTrim output))

/-- tools.Tool, with the executor abstracted over the OS oracle
(the parameter schema is irrelevant to the verified properties). -/
structure ToolSpec where
  name : String
  description : String
  exec : ToolEnv → Args → Except String String

/-- Map lookup in the registry (registered names are unique). -/
def lookupTool (reg : List ToolSpec) (name : String) : Option ToolSpec :=
  reg.find? (fun t => t.name == name)

/-- tools.Registry.registerDefaults: the thirteen default tools. -/
def defaultRegistry : List ToolSpec :=
  [⟨"date", "Get the current date and time.", dateExec⟩,
   ⟨"ls", "List files and directories in a given path.", lsExec⟩,
   ⟨"cat", "Read and return the contents of a file.", catExec⟩,
   ⟨"pwd", "Get the current working directory.", pwdExec⟩,
   ⟨"ps", "List running processes.", psExec⟩,
   ⟨"curl", "Make HTTP requests to URLs.", curlExec⟩,
   ⟨"which", "Find the full path to a command.", whichExec⟩,
   ⟨"echo", "Echo the input text.", echoExec⟩,
   ⟨"env", "List environment variables.", envExec⟩,
   ⟨"head", "Read the first N lines of a file.", headExec⟩,
   ⟨"tail", "Read the last N lines of a file.", tailExec⟩,
   ⟨"df", "Show disk space usage for file systems.", dfExec⟩,
   ⟨"shell", "Execute a shell command.", shellExecutor⟩]

/-- tools.ToolResult. -/
structure ToolResult where
  toolCallID : String
  name : String
  output : String
  error : String
deriving DecidableEq, Repr

/-- tools.ToolCall: parsed tool invocation. -/
structure AgentToolCall where
  id : String
  name : String
  args : Args
  rawArgs : String

/-- tools.Registry.Execute: unknown names and executor failures become a
ToolResult carrying an error string; successes carry the output. -/
def Execute (reg : List ToolSpec) (env : ToolEnv) (call : AgentToolCall) :
    ToolResult :=
  match lookupTool reg call.name with
  | none => ⟨call.id, call.name, "", "unknown tool: " ++ call.name⟩
  | some tool =>
    match tool.exec env call.args with
    | .error e => ⟨call.id, call.name, "", e⟩
    | .ok output => ⟨call.id, call.name, output, ""⟩

/-- tools.ParseToolCall; `jsonParse` models json.Unmarshal on the raw
argument string (empty raw arguments skip the decoder). -/
def parseToolCall (jsonParse : String → Except String Args)
    (id name argsJSON : String) : Except String AgentToolCall :=
  if argsJSON = "" then .ok ⟨id, name, [], argsJSON⟩
  else
    match jsonParse argsJSON with
    | .error e => .error ("parsing tool arguments: " ++ e)
    | .ok m => .ok ⟨id, name, m, argsJSON⟩

/-! ### Agent orchestrator (agent.ChatStream) -/

/-- External collaborators and configuration of one ChatStream turn.
`complete i msgs` is the provider reply to the i-th CompleteWithOptions
call of the loop (1-based); `execTool` is the tool-registry boundary
(instantiable with `Execute defaultRegistry osEnv`); `confirm` is the
optional confirmation hook; `systemPrompt` is the skill-enhanced system
prompt; `now` models the clock at SaveConversation. -/
structure ChatEnv where
  complete : Nat → List Message → Except String Response
  jsonParse : String → Except String Args
  confirm : Option (AgentToolCall → Bool)
  execTool : AgentToolCall → ToolResult
  countTokens : List Message → Int
  loadedMemories : Option (List MemoryItem)
  systemPrompt : String
  maxMessages : Nat
  maxTokens : Int
  summarizeWhen : Nat
  now : Nat

/-- Result of the per-response tool loop: either the user denied a call
(aborting the turn) or the updated working messages and the calls
executed so far. -/
inductive ToolLoopRes where
  | denied (execs : List AgentToolCall)
  | ok (msgs : List Message) (execs : List AgentToolCall)

/-- One tool execution: run the tool, format the result content
("Error: ..." on a non-empty error), append the tool-role message and
record the executed call. -/
def toolExecStep (env : ChatEnv) (tc : LLMToolCall) (fnName : String)
    (call : AgentToolCall) (msgs : List Message) (execs : List AgentToolCall) :
    List Message × List AgentToolCall :=
  let result := env.execTool call
  let resultContent :=
    if result.error ≠ "" then "Error: " ++ result.error else result.output
  (msgs ++ [⟨"tool", resultContent, [], tc.id, fnName⟩], execs ++ [call])

/-- The `for _, tc := range resp.ToolCalls` body of ChatStream: skip calls
without a function descriptor, turn parse failures into tool-role error
messages, consult the confirmation hook (a denial aborts the whole turn),
otherwise execute and append the result message. -/
def toolLoop (env : ChatEnv) :
    List LLMToolCall → List Message → List AgentToolCall → ToolLoopRes
  | [], msgs, execs => .ok msgs execs
  | tc :: rest, msgs, execs =>
    match tc.function with
    | none => toolLoop env rest msgs execs
    | some fn =>
      match parseToolCall env.jsonParse tc.id fn.name fn.arguments with
      | .error e =>
        toolLoop env rest
          (msgs ++ [⟨"tool", "Error parsing tool arguments: " ++ e, [], tc.id, fn.name⟩])
          execs
      | .ok call =>
        match env.confirm with
        | some f =>
          if f call then
            let s := toolExecStep env tc fn.name call msgs execs
            toolLoop env rest s.1 s.2
          else .denied execs
        | none =>
          let s := toolExecStep env tc fn.name call msgs execs
          toolLoop env rest s.1 s.2

/-- Exit of the agentic loop: the loop left normally (carrying the
`response` variable and the final value of `iteration`), the provider
errored, or a tool call was denied. -/
inductive LoopRes where
  | finished (response : String) (iteration : Nat) (execs : List AgentToolCall)
  | provErr (msg : String) (execs : List AgentToolCall)
  | denied (execs : List AgentToolCall)

/-- The `for iteration < maxIterations` loop of ChatStream.  `fuel` is a
structural bound only (callers pass `fuel = maxIterations - iteration`, so
the guard `maxIterations ≤ iteration` is the real exit); `iteration` is
incremented at the top of the body as in the source, and a no-tool-call
response breaks out with the response content. -/
def agentLoop (env : ChatEnv) (maxIterations : Nat) :
    Nat → Nat → List Message → List AgentToolCall → LoopRes
  | 0, iteration, _, execs => .finished "" iteration execs
  | fuel + 1, iteration, msgs, execs =>
    if maxIterations ≤ iteration then .finished "" iteration execs
    else
      let iteration1 := iteration + 1
      match env.complete iteration1 msgs with
      | .error e => .provErr e execs
      | .ok resp =>
        if resp.hasToolCalls = false then .finished resp.content iteration1 execs
        else
          let msgs1 := msgs ++ [⟨"assistant", resp.content, resp.toolCalls, "", ""⟩]
          match toolLoop env resp.toolCalls msgs1 execs with
          | .denied execs1 => .denied execs1
          | .ok msgs2 execs2 => agentLoop env maxIterations fuel iteration1 msgs2 execs2

/-- The working message list ChatStream sends to the provider on the first
iteration: system prompt, the memory manager's built context, then the new
user message appended again. -/
def chatFullMessages (env : ChatEnv) (conv : Conversation) (userInput : String) :
    List Message :=
  ⟨"system", env.systemPrompt, [], "", ""⟩ ::
    buildContextMessages env.countTokens env.maxMessages env.maxTokens
      env.loadedMemories conv userInput ++
    [⟨"user", userInput, [], "", ""⟩]

/-- Caller-visible outcome of one ChatStream turn. -/
inductive ChatOutcome where
  | done (text : String)
  | providerError (msg : String)
  | toolDenied
  | maxIter
deriving DecidableEq, Repr

/-- agent.ChatStream: run the agentic loop on the assembled context; after
the loop, `iteration >= maxIterations` fails the turn even when the final
iteration produced a text response; on success append exactly the user
and assistant records and save once.  Returns (outcome, conversation
saves performed by the orchestrator, tool calls executed).  The optional
onChunk callback only re-delivers the already-computed response text and
is omitted. -/
def chatStream (env : ChatEnv) (conv : Conversation) (userInput : String) :
    ChatOutcome × List Conversation × List AgentToolCall :=
  match agentLoop env 10 10 0 (chatFullMessages env conv userInput) [] with
  | .provErr e execs => (.providerError e, [], execs)
  | .denied execs => (.toolDenied, [], execs)
  | .finished resp iter execs =>
    if 10 ≤ iter then (.maxIter, [], execs)
    else
      let conv1 : Conversation :=
        { conv with
            messages := conv.messages ++
              [⟨"user", userInput, [], "", ""⟩, ⟨"assistant", resp, [], "", ""⟩]
            updatedAt := env.now }
      (.done resp, [conv1], execs)

/-! ### The plain (non-logging) memory.Manager variant, for the
refinement-equivalence claim.  The definitions below are transcribed
independently from the second memory package copy. -/

namespace MemV2

/-- Plain variant of getRelevantMemories' inner word loop. -/
def memMatchCount (queryLower contentLower : String) : Nat :=
  (fields queryLower).countP
    (fun word => decide (3 < word.utf8ByteSize) && strContains contentLower word)

/-- Plain variant of the keyword score. -/
def memScore (query : String) (mem : MemoryItem) : ℚ :=
  ((memMatchCount (strLower query) (strLower mem.content) : ℚ) * (1/5)) * mem.relevance

/-- Plain variant of the survival test. -/
def memKeep (query : String) (mem : MemoryItem) : Bool :=
  !(decide (mem.relevance < 3/10)) && decide ((1 : ℚ)/10 < memScore query mem)

/-- Plain variant of getRelevantMemories. -/
def getRelevantMemories (memories : List MemoryItem) (query : String) :
    List MemoryItem :=
  (List.insertionSort relGE (memories.filter (memKeep query))).take 5

/-- Plain variant of formatMemories. -/
def formatMemories (memories : List MemoryItem) : String :=
  String.intercalate "\n"
    (memories.map (fun mem => "- [" ++ mem.type ++ "] " ++ mem.content))

/-- Plain variant of the sliding-window loop. -/
def gatherRecent (countTokens : List Message → Int) (budget : Int)
    (maxMessages : Nat) : List Message → Int → List Message → List Message
  | [], _, recent => recent
  | msg :: restNewest, tokenCount, recent =>
    let msgTokens := countTokens [msg]
    if budget < tokenCount + msgTokens then recent
    else
      let recent1 := msg :: recent
      if maxMessages ≤ recent1.length then recent1
      else gatherRecent countTokens budget maxMessages restNewest
        (tokenCount + msgTokens) recent1

/-- Plain variant of getRecentMessages. -/
def getRecentMessages (countTokens : List Message → Int) (maxMessages : Nat)
    (maxTokens : Int) (messages : List Message) (newUserMessage : String) :
    List Message :=
  let result : List Message := [⟨"user", newUserMessage, [], "", ""⟩]
  let budget := maxTokens - countTokens result - 500
  gatherRecent countTokens budget maxMessages messages.reverse 0 [] ++ result

/-- Plain variant of BuildContext's message assembly. -/
def buildContextMessages (countTokens : List Message → Int) (maxMessages : Nat)
    (maxTokens : Int) (loadedMemories : Option (List MemoryItem))
    (conv : Conversation) (userMessage : String) : List Message :=
  let memPart : List Message :=
    match loadedMemories with
    | none => []
    | some mems =>
      let memories := getRelevantMemories mems userMessage
      if 0 < memories.length then
        let memoryContext := formatMemories memories
        if memoryContext ≠ "" then
          [⟨"system", "Relevant context from memory:\n" ++ memoryContext, [], "", ""⟩]
        else []
      else []
  let sumPart : List Message :=
    if conv.summary ≠ "" then
      [⟨"system", "Previous conversation summary: " ++ conv.summary, [], "", ""⟩]
    else []
  memPart ++ sumPart ++
    getRecentMessages countTokens maxMessages maxTokens conv.messages userMessage

/-- Plain variant of AddMemory. -/
def addMemory (genId : String) (now : Nat) (content memType : String) :
    MemoryItem :=
  ⟨genId, content, memType, now, 1⟩

end MemV2

/-! ### Shared helper lemmas -/

/-- Appending to a non-empty string stays non-empty. -/
theorem str_append_ne_empty (s t : String) (h : s ≠ "") : s ++ t ≠ "" := by
  intro heq
  apply h
  have hl : (s ++ t).length = 0 := by rw [heq]; rfl
  rw [String.length_append] at hl
  have h0 : s.length = 0 := by omega
  cases s with
  | mk data =>
    cases data with
    | nil => rfl
    | cons c cs => simp [String.length] at h0

/-- The sliding-window loop of the two Manager variants agree. -/
theorem gatherRecent_agree (c : List Message → Int) (b : Int) (mm : Nat) :
    ∀ l tc rec, MemV2.gatherRecent c b mm l tc rec = gatherRecent c b mm l tc rec := by
  intro l
  induction l with
  | nil => intro tc rec; rfl
  | cons m rest ih =>
    intro tc rec
    simp only [MemV2.gatherRecent, gatherRecent]
    by_cases h1 : b < tc + c [m]
    · simp only [if_pos h1]
    · simp only [if_neg h1]
      by_cases h2 : mm ≤ (m :: rec).length
      · simp only [if_pos h2]
      · simp only [if_neg h2, ih]

/-- The built context always ends with the new user message. -/
theorem buildContextMessages_ends_user (c : List Message → Int) (mm : Nat)
    (mt : Int) (lm : Option (List MemoryItem)) (conv : Conversation) (u : String) :
    ∃ q, buildContextMessages c mm mt lm conv u =
      q ++ [⟨"user", u, [], "", ""⟩] := by
  simp only [buildContextMessages, getRecentMessages]
  exact ⟨_, by rw [← List.append_assoc]⟩

/-- Every memory built by the extraction line loop has a validated type and
relevance 0.7. -/
theorem extractLoop_mem (idGen : Nat → String) (now : Nat) :
    ∀ lines k item, item ∈ extractLoop idGen now lines k →
      (item.type = "fact" ∨ item.type = "preference" ∨ item.type = "context") ∧
      item.relevance = 7/10 := by
  intro lines
  induction lines with
  | nil => intro k item h; simp [extractLoop] at h
  | cons line rest ih =>
    intro k item h
    simp only [extractLoop] at h
    by_cases h1 : strTrim line = ""
    · rw [if_pos h1] at h; exact ih k item h
    · rw [if_neg h1] at h
      cases hsp : splitFirstColon (strTrim line).data with
      | none => rw [hsp] at h; exact ih k item h
      | some p =>
        rw [hsp] at h
        rcases List.mem_cons.mp h with heq | hmem
        · subst heq
          refine ⟨?_, rfl⟩
          by_cases h2 : strTrim (String.mk p.1) ≠ "fact" ∧
              strTrim (String.mk p.1) ≠ "preference" ∧ strTrim (String.mk p.1) ≠ "context"
          · simp [h2]
          · simp only [ne_eq, not_and_or, not_not] at h2
            simp only [MemoryItem.mk.injEq]
            rcases h2 with h2 | h2 | h2 <;> simp [h2]
        · exact ih (k + 1) item hmem

/-- Fixed id generator used by the concrete instances below. -/
def cidGen : Nat → String := fun k => toString k

/-- A conversation holding exactly 5 raw messages and no summary. -/
def conv5 : Conversation :=
  ⟨"c", 0, 0,
    [⟨"user", "a", [], "", ""⟩, ⟨"assistant", "b", [], "", ""⟩,
     ⟨"user", "c", [], "", ""⟩, ⟨"assistant", "d", [], "", ""⟩,
     ⟨"user", "e", [], "", ""⟩], ""⟩

/-- A conversation holding 12 raw messages. -/
def conv12 : Conversation :=
  ⟨"c12", 0, 0, List.replicate 12 ⟨"user", "m", [], "", ""⟩, ""⟩

/-! ### Claims -/

/-- Claim C9: on the first loop iteration the provider-bound working list
ends with two consecutive user-role messages both carrying the new user
input — one appended by BuildContext and one appended again by
ChatStream. -/
theorem chatStream_duplicates_user_message (env : ChatEnv) (conv : Conversation)
    (u : String) :
    ∃ p : List Message, chatFullMessages env conv u =
      p ++ [⟨"user", u, [], "", ""⟩, ⟨"user", u, [], "", ""⟩] := by
  obtain ⟨q, hq⟩ := buildContextMessages_ends_user env.countTokens env.maxMessages
    env.maxTokens env.loadedMemories conv u
  refine ⟨⟨"system", env.systemPrompt, [], "", ""⟩ :: q, ?_⟩
  simp [chatFullMessages, hq]

/-- Claim C10: the logging and the plain memory.Manager variants are
observationally equivalent on BuildContext, getRelevantMemories,
getRecentMessages and AddMemory. -/
theorem memory_manager_variants_agree :
    (∀ c mm mt lm conv u, MemV2.buildContextMessages c mm mt lm conv u =
      buildContextMessages c mm mt lm conv u) ∧
    (∀ mems q, MemV2.getRelevantMemories mems q = getRelevantMemories mems q) ∧
    (∀ c mm mt msgs u, MemV2.getRecentMessages c mm mt msgs u =
      getRecentMessages c mm mt msgs u) ∧
    (∀ gid now content memType, MemV2.addMemory gid now content memType =
      addMemory gid now content memType) := by
  have hrecent : ∀ c mm mt msgs u, MemV2.getRecentMessages c mm mt msgs u =
      getRecentMessages c mm mt msgs u := by
    intro c mm mt msgs u
    simp only [MemV2.getRecentMessages, getRecentMessages, gatherRecent_agree]
  refine ⟨?_, fun _ _ => rfl, hrecent, fun _ _ _ _ => rfl⟩
  intro c mm mt lm conv u
  simp only [MemV2.buildContextMessages, buildContextMessages, hrecent]
  rfl

/-- Claim C5 (confirmed): a successful turn performs exactly one save
appending exactly the user record and the assistant record (no tool
messages persisted, all other fields besides the updated timestamp
unchanged); a denied or iteration-limited turn performs zero saves. -/
theorem chatStream_save_discipline (env : ChatEnv) (conv : Conversation)
    (u : String) :
    (∀ t, (chatStream env conv u).1 = ChatOutcome.done t →
      (chatStream env conv u).2.1 =
        [{ conv with
             messages := conv.messages ++
               [⟨"user", u, [], "", ""⟩, ⟨"assistant", t, [], "", ""⟩]
             updatedAt := env.now }]) ∧
    (((chatStream env conv u).1 = ChatOutcome.toolDenied ∨
      (chatStream env conv u).1 = ChatOutcome.maxIter) →
      (chatStream env conv u).2.1 = []) := by
  rcases hLoop : agentLoop env 10 10 0 (chatFullMessages env conv u) [] with
    ⟨resp, iter, execs⟩ | ⟨e, execs⟩ | execs
  · by_cases hit : 10 ≤ iter
    · refine ⟨fun t ht => ?_, fun ht => ?_⟩
      · rw [chatStream.eq_def, hLoop] at ht
        simp only [if_pos hit] at ht
        cases ht
      · rw [chatStream.eq_def, hLoop]
        simp [hit]
    · refine ⟨fun t ht => ?_, fun ht => ?_⟩
      · rw [chatStream.eq_def, hLoop] at ht ⊢
        simp only [if_neg hit] at ht ⊢
        cases ht
        rfl
      · rw [chatStream.eq_def, hLoop] at ht
        simp only [if_neg hit] at ht
        rcases ht with ht | ht <;> cases ht
  · refine ⟨fun t ht => ?_, fun ht => ?_⟩
    · rw [chatStream.eq_def, hLoop] at ht
      cases ht
    · rw [chatStream.eq_def, hLoop]
  · refine ⟨fun t ht => ?_, fun ht => ?_⟩
    · rw [chatStream.eq_def, hLoop] at ht
      cases ht
    · rw [chatStream.eq_def, hLoop]

/-- Concrete provider that always answers with plain text. -/
def alwaysText (_i : Nat) (_msgs : List Message) : Except String Response :=
  .ok ⟨"hello", [], 0, "stop"⟩

/-- Environment whose provider immediately returns text. -/
def doneEnv : ChatEnv :=
  ⟨alwaysText, fun _ => .error "bad json", none,
   fun c => ⟨c.id, c.name, "", ""⟩, fun _ => 0, none, "SYS", 10, 1000, 5, 42⟩

/-- Empty starting conversation. -/
def conv0 : Conversation := ⟨"c", 0, 0, [], ""⟩

/-- Witness for C5: a concrete successful turn saves exactly the two
records. -/
theorem chatStream_save_discipline_witness :
    (chatStream doneEnv conv0 "hi").2.1 =
      [⟨"c", 0, 42,
        [⟨"user", "hi", [], "", ""⟩, ⟨"assistant", "hello", [], "", ""⟩], ""⟩] :=
  (chatStream_save_discipline doneEnv conv0 "hi").1 "hello" rfl

/-- Claim C6 counterexample: AddMemory persists an invalid type verbatim —
the "invalid types default to fact" validation exists only in the
extraction path. -/
theorem addMemory_keeps_invalid_type :
    (addMemory "1" 0 "X" "banana").type = "banana" ∧
    (addMemory "1" 0 "X" "banana").relevance = 1 ∧
    ¬((addMemory "1" 0 "X" "banana").type = "fact" ∨
      (addMemory "1" 0 "X" "banana").type = "preference" ∨
      (addMemory "1" 0 "X" "banana").type = "context") := by
  decide

/-- Claim C6 (amended): every memory persisted by automatic extraction has
type in the set (invalid tokens defaulting to "fact") and relevance 0.7;
manual AddMemory persists relevance 1.0 but stores the requested type
verbatim, with no validation. -/
theorem memory_type_discipline :
    (∀ idGen now resp item, item ∈ extractMemories idGen now resp →
      (item.type = "fact" ∨ item.type = "preference" ∨ item.type = "context") ∧
      item.relevance = 7/10) ∧
    (∀ gid now content memType,
      (addMemory gid now content memType).relevance = 1 ∧
      (addMemory gid now content memType).type = memType) := by
  constructor
  · intro idGen now resp item hmem
    cases resp with
    | error e => simp [extractMemories] at hmem
    | ok content => exact extractLoop_mem idGen now _ 0 item hmem
  · intro gid now content memType
    exact ⟨rfl, rfl⟩

/-- Witness for C6: a concrete extraction line with an unknown type token
is stored as a "fact" with relevance 0.7. -/
theorem memory_type_discipline_witness :
    extractMemories cidGen 0 (Except.ok "banana: hello") =
      [⟨"0", "hello", "fact", 0, 7/10⟩] ∧
    (((⟨"0", "hello", "fact", 0, 7/10⟩ : MemoryItem).type = "fact" ∨
      (⟨"0", "hello", "fact", 0, 7/10⟩ : MemoryItem).type = "preference" ∨
      (⟨"0", "hello", "fact", 0, 7/10⟩ : MemoryItem).type = "context") ∧
      (⟨"0", "hello", "fact", 0, 7/10⟩ : MemoryItem).relevance = 7/10) :=
  ⟨rfl,
   memory_type_discipline.1 cidGen 0 (Except.ok "banana: hello")
     ⟨"0", "hello", "fact", 0, 7/10⟩
     (by
       have hx : extractMemories cidGen 0 (Except.ok "banana: hello") =
           [(⟨"0", "hello", "fact", 0, 7/10⟩ : MemoryItem)] := rfl
       rw [hx]
       exact List.mem_cons_self _ _)⟩

/-- Claim C2 counterexample: with summarizeWhen = 5 and a conversation of
exactly 5 raw messages the pass is triggered, but it returns without
setting any summary and without saving (the body requires more than 10
messages), so the conversation never gains a non-empty summary. -/
theorem summarize_trigger_at_five_is_noop :
    conv5.messages.length = 5 ∧
    buildContextSpawns 5 conv5 = [conv5] ∧
    (summarizeConversation 5 7 cidGen (Except.ok "SUMMARY")
        (Except.ok "fact: f") conv5).conv.summary = "" ∧
    (summarizeConversation 5 7 cidGen (Except.ok "SUMMARY")
        (Except.ok "fact: f") conv5).saves = [] := by
  decide

/-- Claim C2 (amended): a conversation at the summarizeWhen = 5 threshold
triggers exactly one pass per turn, but the pass modifies nothing unless
the conversation holds more than 10 messages; when it does and the
provider succeeds, it sets the summary, truncates to the retained last 10
messages and persists exactly once, and on provider failure it leaves the
conversation untouched. -/
theorem summarization_pass_behaviour (conv : Conversation) :
    (conv.messages.length = 5 →
      buildContextSpawns 5 conv = [conv] ∧
      ∀ now idGen sResp eResp,
        summarizeConversation 5 now idGen sResp eResp conv = ⟨conv, [], [], []⟩) ∧
    (∀ now idGen eResp s, 10 < conv.messages.length →
      (summarizeConversation 5 now idGen (Except.ok s) eResp conv).conv =
        { conv with
            summary := s
            messages := conv.messages.drop (conv.messages.length - 10)
            updatedAt := now } ∧
      (summarizeConversation 5 now idGen (Except.ok s) eResp conv).conv.messages.length = 10 ∧
      (summarizeConversation 5 now idGen (Except.ok s) eResp conv).saves =
        [(summarizeConversation 5 now idGen (Except.ok s) eResp conv).conv] ∧
      (summarizeConversation 5 now idGen (Except.ok s) eResp conv).extracted =
        extractMemories idGen now eResp ∧
      (summarizeConversation 5 now idGen (Except.ok s) eResp conv).batch =
        conv.messages.take (conv.messages.length - 10)) ∧
    (∀ now idGen e eResp,
      summarizeConversation 5 now idGen (Except.error e) eResp conv =
        ⟨conv, [], [], []⟩) := by
  refine ⟨?_, ?_, ?_⟩
  · intro h5
    constructor
    · simp [buildContextSpawns, h5]
    · intro now idGen sResp eResp
      simp [summarizeConversation, h5]
  · intro now idGen eResp s h10
    have hn5 : ¬(conv.messages.length < 5) := by omega
    have hn10 : ¬(conv.messages.length ≤ 10) := by omega
    refine ⟨?_, ?_, ?_, ?_, ?_⟩ <;>
      simp [summarizeConversation, hn5, hn10, List.length_drop]
    omega
  · intro now idGen e eResp
    by_cases hn5 : conv.messages.length < 5
    · simp [summarizeConversation, hn5]
    · by_cases hn10 : conv.messages.length ≤ 10
      · simp [summarizeConversation, hn5, hn10]
      · simp [summarizeConversation, hn5, hn10]

/-- Witness for C2: the 5-message instance is a triggered no-op, and a
12-message instance with a successful provider is summarized down to 10
messages with the summary set and one save. -/
theorem summarization_pass_behaviour_witness :
    (buildContextSpawns 5 conv5 = [conv5] ∧
      ∀ now idGen sResp eResp,
        summarizeConversation 5 now idGen sResp eResp conv5 = ⟨conv5, [], [], []⟩) ∧
    ((summarizeConversation 5 3 cidGen (Except.ok "S") (Except.ok "x") conv12).conv =
      { conv12 with
          summary := "S"
          messages := conv12.messages.drop (conv12.messages.length - 10)
          updatedAt := 3 } ∧
      (summarizeConversation 5 3 cidGen (Except.ok "S") (Except.ok "x") conv12).conv.messages.length = 10 ∧
      (summarizeConversation 5 3 cidGen (Except.ok "S") (Except.ok "x") conv12).saves =
        [(summarizeConversation 5 3 cidGen (Except.ok "S") (Except.ok "x") conv12).conv] ∧
      (summarizeConversation 5 3 cidGen (Except.ok "S") (Except.ok "x") conv12).extracted =
        extractMemories cidGen 3 (Except.ok "x") ∧
      (summarizeConversation 5 3 cidGen (Except.ok "S") (Except.ok "x") conv12).batch =
        conv12.messages.take (conv12.messages.length - 10)) :=
  ⟨(summarization_pass_behaviour conv5).1 (by decide),
   (summarization_pass_behaviour conv12).2.1 3 cidGen (Except.ok "x") "S" (by decide)⟩

/-- Claim C4 (confirmed): memory recall returns at most 5 items, every
returned item has stored relevance at least 0.3, a computed score
0.2 * matchCount * storedRelevance above 0.1, and comes from the store;
the result is sorted by stored relevance descending (not by the computed
score); and whenever at most 5 items qualify, the result contains exactly
the qualifying items. -/
theorem getRelevantMemories_spec (memories : List MemoryItem) (query : String) :
    (getRelevantMemories memories query).length ≤ 5 ∧
    (∀ mem, mem ∈ getRelevantMemories memories query →
      (3/10 : ℚ) ≤ mem.relevance ∧ (1/10 : ℚ) < memScore query mem ∧
      mem ∈ memories) ∧
    List.Sorted relGE (getRelevantMemories memories query) ∧
    ((memories.filter (memKeep query)).length ≤ 5 →
      ∀ mem, (mem ∈ getRelevantMemories memories query ↔
        mem ∈ memories ∧ memKeep query mem = true)) := by
  refine ⟨List.length_take_le 5 _, ?_, ?_, ?_⟩
  · intro mem hmem
    have h1 : mem ∈ List.insertionSort relGE (memories.filter (memKeep query)) :=
      List.take_subset 5 _ hmem
    have h2 : mem ∈ memories.filter (memKeep query) :=
      (List.mem_insertionSort relGE).mp h1
    obtain ⟨hm, hk⟩ := List.mem_filter.mp h2
    rw [memKeep, Bool.and_eq_true] at hk
    obtain ⟨hk1, hk2⟩ := hk
    rw [Bool.not_eq_true'] at hk1
    exact ⟨not_lt.mp (of_decide_eq_false hk1), of_decide_eq_true hk2, hm⟩
  · exact (List.sorted_insertionSort relGE (memories.filter (memKeep query))).sublist
      (List.take_sublist 5 _)
  · intro hlen mem
    have hlen2 :
        (List.insertionSort relGE (memories.filter (memKeep query))).length ≤ 5 := by
      rw [List.length_insertionSort]
      exact hlen
    rw [getRelevantMemories, List.take_of_length_le hlen2, List.mem_insertionSort,
      List.mem_filter]

/-- Stored memory matching the sample query. -/
def memGo : MemoryItem := ⟨"1", "User likes Go programming", "preference", 0, 4/5⟩

/-- Stored memory not matching the sample query. -/
def memAcme : MemoryItem := ⟨"2", "User works at Acme Corp", "fact", 0, 1/2⟩

/-- The sample query keeps `memGo` ("programming" matches). -/
theorem memKeep_memGo : memKeep "help me with programming" memGo = true := by
  have hcount : memMatchCount (strLower "help me with programming")
      (strLower memGo.content) = 1 := rfl
  rw [memKeep, memScore, hcount]
  rw [Bool.and_eq_true]
  constructor
  · rw [Bool.not_eq_true', decide_eq_false_iff_not]
    show ¬(memGo.relevance < 3/10)
    rw [show memGo.relevance = 4/5 from rfl]
    norm_num
  · rw [decide_eq_true_eq]
    rw [show memGo.relevance = 4/5 from rfl]
    norm_num

/-- The sample query drops `memAcme` (no word matches). -/
theorem memKeep_memAcme : memKeep "help me with programming" memAcme = false := by
  have hcount : memMatchCount (strLower "help me with programming")
      (strLower memAcme.content) = 0 := rfl
  rw [memKeep, memScore, hcount]
  have h2 : decide ((1 : ℚ)/10 <
      ((0 : Nat) : ℚ) * (1/5) * memAcme.relevance) = false := by
    rw [decide_eq_false_iff_not]
    rw [show memAcme.relevance = 1/2 from rfl]
    norm_num
  rw [h2, Bool.and_false]

/-- Witness for C4: on a concrete store and query exactly the matching
memory is recalled, with its relevance and score facts established by
the main theorem. -/
theorem getRelevantMemories_spec_witness :
    (getRelevantMemories [memGo, memAcme] "help me with programming").length ≤ 5 ∧
    ((3/10 : ℚ) ≤ memGo.relevance ∧
      (1/10 : ℚ) < memScore "help me with programming" memGo ∧
      memGo ∈ [memGo, memAcme]) ∧
    (memGo ∈ getRelevantMemories [memGo, memAcme] "help me with programming" ↔
      memGo ∈ [memGo, memAcme] ∧
        memKeep "help me with programming" memGo = true) := by
  have hfilter : ([memGo, memAcme].filter (memKeep "help me with programming")) =
      [memGo] := by
    rw [List.filter_cons, List.filter_cons]
    rw [memKeep_memGo, memKeep_memAcme]
    rfl
  have hmem : memGo ∈ getRelevantMemories [memGo, memAcme]
      "help me with programming" := by
    rw [getRelevantMemories, hfilter]
    exact List.mem_cons_self _ _
  refine ⟨(getRelevantMemories_spec [memGo, memAcme] "help me with programming").1,
    (getRelevantMemories_spec [memGo, memAcme] "help me with programming").2.1
      memGo hmem,
    (getRelevantMemories_spec [memGo, memAcme] "help me with programming").2.2.2
      ?_ memGo⟩
  rw [hfilter]
  decide

/-- With no confirmation hook configured the tool loop never denies. -/
theorem toolLoop_no_deny (env : ChatEnv) (h : env.confirm = none) :
    ∀ tcs msgs execs, ∃ p : List Message × List AgentToolCall,
      toolLoop env tcs msgs execs = .ok p.1 p.2 := by
  intro tcs
  induction tcs with
  | nil => intro msgs execs; exact ⟨(msgs, execs), rfl⟩
  | cons tc rest ih =>
    intro msgs execs
    cases htc : tc.function with
    | none => simpa [toolLoop, htc] using ih msgs execs
    | some fn =>
      cases hp : parseToolCall env.jsonParse tc.id fn.name fn.arguments with
      | error e => simpa [toolLoop, htc, hp] using ih _ execs
      | ok call =>
        simp only [toolLoop, htc, hp, h]
        exact ih _ _

/-- If the provider replies with tool calls on every call before the k-th
and with a plain-text response on the k-th, and no hook is configured, the
loop leaves with the k-th response's content and `iteration = k`. -/
theorem agentLoop_first_text (env : ChatEnv) (k : Nat) (t : String)
    (hconfirm : env.confirm = none)
    (htool : ∀ i msgs, 1 ≤ i → i < k →
      ∃ resp, env.complete i msgs = .ok resp ∧ resp.toolCalls ≠ [])
    (hdone : ∀ msgs, ∃ resp, env.complete k msgs = .ok resp ∧
      resp.toolCalls = [] ∧ resp.content = t) :
    ∀ fuel iteration msgs execs,
      iteration + fuel = 10 → iteration < k → k ≤ 10 →
      ∃ execs1, agentLoop env 10 fuel iteration msgs execs =
        .finished t k execs1 := by
  intro fuel
  induction fuel with
  | zero =>
    intro iteration msgs execs hsum hik hk10
    omega
  | succ fuel ih =>
    intro iteration msgs execs hsum hik hk10
    have hiter : ¬(10 ≤ iteration) := by omega
    by_cases hk : iteration + 1 = k
    · subst hk
      obtain ⟨resp, hresp, hrtc, hrc⟩ := hdone msgs
      have hb : resp.hasToolCalls = false := by
        rw [Response.hasToolCalls, hrtc]
        rfl
      refine ⟨execs, ?_⟩
      simp [agentLoop, hiter, hresp, hb, hrc]
    · have h1k : iteration + 1 < k := by omega
      obtain ⟨resp, hresp, hrtc⟩ := htool (iteration + 1) msgs (by omega) h1k
      have hb : resp.hasToolCalls = true := by
        rw [Response.hasToolCalls, decide_eq_true_eq]
        exact List.length_pos.mpr hrtc
      obtain ⟨p, hp⟩ := toolLoop_no_deny env hconfirm resp.toolCalls
        (msgs ++ [⟨"assistant", resp.content, resp.toolCalls, "", ""⟩]) execs
      obtain ⟨execs1, hrec⟩ := ih (iteration + 1) p.1 p.2 (by omega) h1k hk10
      refine ⟨execs1, ?_⟩
      simp [agentLoop, hiter, hresp, hb, hp, hrec]

/-- Claim C1 (amended): when no hook is configured and the provider first
returns a no-tool-call response on call k (returning tool calls before),
ChatStream yields that response's text only for k ≤ 9; at k = 10 the
post-loop `iteration >= maxIterations` check discards the obtained text
and fails with the iteration-limit error. -/
theorem chatStream_done_iff_before_cap (env : ChatEnv) (conv : Conversation)
    (u : String) (k : Nat) (t : String)
    (hk1 : 1 ≤ k) (hk10 : k ≤ 10)
    (hconfirm : env.confirm = none)
    (htool : ∀ i msgs, 1 ≤ i → i < k →
      ∃ resp, env.complete i msgs = .ok resp ∧ resp.toolCalls ≠ [])
    (hdone : ∀ msgs, ∃ resp, env.complete k msgs = .ok resp ∧
      resp.toolCalls = [] ∧ resp.content = t) :
    (k ≤ 9 → (chatStream env conv u).1 = ChatOutcome.done t) ∧
    (k = 10 → (chatStream env conv u).1 = ChatOutcome.maxIter) := by
  obtain ⟨execs1, hrun⟩ := agentLoop_first_text env k t hconfirm htool hdone 10 0
    (chatFullMessages env conv u) [] (by omega) (by omega) hk10
  constructor
  · intro hk9
    have hnk : ¬(10 ≤ k) := by omega
    rw [chatStream.eq_def, hrun]
    simp [hnk]
  · intro hkeq
    subst hkeq
    rw [chatStream.eq_def, hrun]
    simp

/-- A provider response requesting one echo tool call. -/
def toolCallResp : Response :=
  ⟨"", [⟨"call1", "function", some ⟨"echo", ""⟩⟩], 0, "tool_calls"⟩

/-- A plain-text provider response. -/
def textResp : Response := ⟨"hello", [], 0, "stop"⟩

/-- Provider behaviour: tool calls on calls 1..9, plain text afterwards. -/
def nineToolProvider (i : Nat) (_msgs : List Message) : Except String Response :=
  if i ≤ 9 then .ok toolCallResp else .ok textResp

/-- Turn environment around `nineToolProvider`, no confirmation hook. -/
def nineToolEnv : ChatEnv :=
  ⟨nineToolProvider, fun _ => .error "unused", none,
   fun c => ⟨c.id, c.name, "ok", ""⟩, fun _ => 0, none, "SYS", 10, 1000, 5, 0⟩

/-- Claim C1 counterexample: with tool calls on iterations 1-9 and plain
text on iteration 10, ChatStream returns the iteration-limit failure, not
the text — the claim's `1 ≤ i ≤ 10` window is off by one. -/
theorem chatStream_text_on_tenth_iteration_errors :
    (∀ msgs, nineToolProvider 10 msgs = Except.ok textResp) ∧
    textResp.toolCalls = [] ∧ textResp.content = "hello" ∧
    (chatStream nineToolEnv conv0 "go").1 = ChatOutcome.maxIter ∧
    (chatStream nineToolEnv conv0 "go").1 ≠ ChatOutcome.done "hello" := by
  refine ⟨fun msgs => rfl, rfl, rfl, rfl, ?_⟩
  rw [show (chatStream nineToolEnv conv0 "go").1 = ChatOutcome.maxIter from rfl]
  decide

/-- Provider behaviour: one round of tool calls, then plain text. -/
def twoStepProvider (i : Nat) (_msgs : List Message) : Except String Response :=
  if i < 2 then .ok toolCallResp else .ok ⟨"done", [], 0, "stop"⟩

/-- Turn environment around `twoStepProvider`, no confirmation hook. -/
def twoStepEnv : ChatEnv :=
  ⟨twoStepProvider, fun _ => .error "unused", none,
   fun c => ⟨c.id, c.name, "ok", ""⟩, fun _ => 0, none, "SYS", 10, 1000, 5, 0⟩

/-- Witness for C1: a no-tool-call response on call 2 ends the turn as DONE
with that response's text. -/
theorem chatStream_done_iff_before_cap_witness :
    (chatStream twoStepEnv conv0 "go").1 = ChatOutcome.done "done" :=
  (chatStream_done_iff_before_cap twoStepEnv conv0 "go" 2 "done"
    (by omega) (by omega) rfl
    (fun i msgs h1 h2 => by
      have hi : i = 1 := by omega
      subst hi
      exact ⟨toolCallResp, rfl, by decide⟩)
    (fun msgs => ⟨⟨"done", [], 0, "stop"⟩, rfl, rfl, rfl⟩)).1 (by omega)

/-- A provider response requesting two echo tool calls. -/
def twoCallResp : Response :=
  ⟨"", [⟨"c1", "function", some ⟨"echo", ""⟩⟩, ⟨"c2", "function", some ⟨"echo", ""⟩⟩],
   0, "tool_calls"⟩

/-- Provider behaviour that always requests the two tool calls. -/
def denyProvider (_i : Nat) (_msgs : List Message) : Except String Response :=
  .ok twoCallResp

/-- Confirmation hook allowing only the call with id "c1". -/
def denySecondHook : AgentToolCall → Bool := fun c => c.id == "c1"

/-- Turn environment whose hook allows the first call and denies the
second. -/
def denyEnv : ChatEnv :=
  ⟨denyProvider, fun _ => .error "unused", some denySecondHook,
   fun c => ⟨c.id, c.name, "ran", ""⟩, fun _ => 0, none, "SYS", 10, 1000, 5, 0⟩

/-- Claim C3 counterexample: a denial of the second requested call returns
the ToolDenied sentinel with zero saves, but the first tool has already
executed — "no tool executes" fails. -/
theorem denied_turn_after_tool_executed :
    (chatStream denyEnv conv0 "go").1 = ChatOutcome.toolDenied ∧
    (chatStream denyEnv conv0 "go").2.1 = [] ∧
    ((chatStream denyEnv conv0 "go").2.2.map (fun c => c.id)) = ["c1"] :=
  ⟨rfl, rfl, rfl⟩

/-- Claim C3 (amended): a hook denial aborts the turn at the denied call
with the distinct ToolDenied sentinel — the denied call and everything
after it never execute and the orchestrator performs no save — but tools
confirmed earlier in the turn may already have executed. -/
theorem denial_abort_discipline (env : ChatEnv) (conv : Conversation)
    (u : String) :
    ((chatStream env conv u).1 = ChatOutcome.toolDenied →
      (chatStream env conv u).2.1 = []) ∧
    (∀ f tc fn call rest msgs execs,
      env.confirm = some f →
      tc.function = some fn →
      parseToolCall env.jsonParse tc.id fn.name fn.arguments = Except.ok call →
      f call = false →
      toolLoop env (tc :: rest) msgs execs = ToolLoopRes.denied execs) ∧
    (∀ m, ChatOutcome.toolDenied ≠ ChatOutcome.providerError m) ∧
    ChatOutcome.toolDenied ≠ ChatOutcome.maxIter := by
  refine ⟨?_, ?_, fun m h => ChatOutcome.noConfusion h,
    fun h => ChatOutcome.noConfusion h⟩
  · intro ht
    rcases hLoop : agentLoop env 10 10 0 (chatFullMessages env conv u) [] with
      ⟨resp, iter, execs⟩ | ⟨e, execs⟩ | execs
    · rw [chatStream.eq_def, hLoop] at ht ⊢
      by_cases hit : 10 ≤ iter
      · simp [hit]
      · simp only [if_neg hit] at ht
        cases ht
    · rw [chatStream.eq_def, hLoop] at ht
      cases ht
    · rw [chatStream.eq_def, hLoop]
  · intro f tc fn call rest msgs execs hcf htc hpc hf
    simp only [toolLoop, htc, hpc, hcf, hf]
    rfl

/-- Witness for C3: applying the amended theorem to the concrete denying
environment. -/
theorem denial_abort_discipline_witness :
    (chatStream denyEnv conv0 "go").2.1 = [] ∧
    toolLoop denyEnv [⟨"c2", "function", some ⟨"echo", ""⟩⟩] [] [] =
      ToolLoopRes.denied [] :=
  ⟨(denial_abort_discipline denyEnv conv0 "go").1 rfl,
   (denial_abort_discipline denyEnv conv0 "go").2.1 denySecondHook
     ⟨"c2", "function", some ⟨"echo", ""⟩⟩ ⟨"echo", ""⟩ ⟨"c2", "echo", [], ""⟩
     [] [] [] rfl rfl rfl rfl⟩

/-- runCommand failures carry a non-empty message. -/
theorem runCommand_error_ne (env : ToolEnv) (name : String)
    (cmdArgs : List String) (e : String)
    (h : runCommand env name cmdArgs = .error e) : e ≠ "" := by
  rw [runCommand] at h
  split at h
  · injection h with he
    rw [← he]
    exact str_append_ne_empty _ _ (by decide)
  · exact Except.noConfusion h

/-- The date executor never fails. -/
theorem dateExec_error_ne (env : ToolEnv) (args : Args) (e : String)
    (h : dateExec env args = .error e) : e ≠ "" := by
  rw [dateExec] at h
  simp at h

/-- ls failures carry a non-empty message. -/
theorem lsExec_error_ne (env : ToolEnv) (args : Args) (e : String)
    (h : lsExec env args = .error e) : e ≠ "" := by
  rw [lsExec] at h
  exact runCommand_error_ne _ _ _ _ h

/-- cat failures carry a non-empty message. -/
theorem catExec_error_ne (env : ToolEnv) (args : Args) (e : String)
    (h : catExec env args = .error e) : e ≠ "" := by
  rw [catExec] at h
  split at h
  · injection h with he
    rw [← he]
    decide
  · split at h
    · injection h with he
      rw [← he]
      decide
    · split at h
      · injection h with he
        rw [← he]
        exact str_append_ne_empty _ _
          (str_append_ne_empty _ _ (str_append_ne_empty _ _ (by decide)))
      · dsimp only at h
        split at h
        · exact Except.noConfusion h
        · exact Except.noConfusion h

/-- pwd failures carry a non-empty message. -/
theorem pwdExec_error_ne (env : ToolEnv) (args : Args) (e : String)
    (h : pwdExec env args = .error e) : e ≠ "" := by
  rw [pwdExec] at h
  split at h
  · injection h with he
    rw [← he]
    exact str_append_ne_empty _ _ (by decide)
  · exact Except.noConfusion h

/-- ps failures carry a non-empty message. -/
theorem psExec_error_ne (env : ToolEnv) (args : Args) (e : String)
    (h : psExec env args = .error e) : e ≠ "" := by
  rw [psExec] at h
  exact runCommand_error_ne _ _ _ _ h

/-- curl failures carry a non-empty message. -/
theorem curlExec_error_ne (env : ToolEnv) (args : Args) (e : String)
    (h : curlExec env args = .error e) : e ≠ "" := by
  rw [curlExec] at h
  split at h
  · injection h with he
    rw [← he]
    decide
  · split at h
    · injection h with he
      rw [← he]
      decide
    · exact runCommand_error_ne _ _ _ _ h

/-- which failures carry a non-empty message. -/
theorem whichExec_error_ne (env : ToolEnv) (args : Args) (e : String)
    (h : whichExec env args = .error e) : e ≠ "" := by
  rw [whichExec] at h
  split at h
  · injection h with he
    rw [← he]
    decide
  · split at h
    · injection h with he
      rw [← he]
      decide
    · exact runCommand_error_ne _ _ _ _ h

/-- echo failures carry a non-empty message. -/
theorem echoExec_error_ne (env : ToolEnv) (args : Args) (e : String)
    (h : echoExec env args = .error e) : e ≠ "" := by
  rw [echoExec] at h
  split at h
  · injection h with he
    rw [← he]
    decide
  · exact Except.noConfusion h

/-- The env executor never fails. -/
theorem envExec_error_ne (env : ToolEnv) (args : Args) (e : String)
    (h : envExec env args = .error e) : e ≠ "" := by
  rw [envExec] at h
  simp at h

/-- head failures carry a non-empty message. -/
theorem headExec_error_ne (env : ToolEnv) (args : Args) (e : String)
    (h : headExec env args = .error e) : e ≠ "" := by
  rw [headExec] at h
  split at h
  · injection h with he
    rw [← he]
    decide
  · split at h
    · injection h with he
      rw [← he]
      decide
    · exact runCommand_error_ne _ _ _ _ h

/-- tail failures carry a non-empty message. -/
theorem tailExec_error_ne (env : ToolEnv) (args : Args) (e : String)
    (h : tailExec env args = .error e) : e ≠ "" := by
  rw [tailExec] at h
  split at h
  · injection h with he
    rw [← he]
    decide
  · split at h
    · injection h with he
      rw [← he]
      decide
    · exact runCommand_error_ne _ _ _ _ h

/-- df failures carry a non-empty message. -/
theorem dfExec_error_ne (env : ToolEnv) (args : Args) (e : String)
    (h : dfExec env args = .error e) : e ≠ "" := by
  rw [dfExec] at h
  exact runCommand_error_ne _ _ _ _ h

/-- uname failures carry a non-empty message. -/
theorem unameExec_error_ne (env : ToolEnv) (args : Args) (e : String)
    (h : unameExec env args = .error e) : e ≠ "" := by
  rw [unameExec] at h
  split at h
  · exact runCommand_error_ne _ _ _ _ h
  · exact runCommand_error_ne _ _ _ _ h

/-- shell failures carry a non-empty message. -/
theorem shellExecutor_error_ne (env : ToolEnv) (args : Args) (e : String)
    (h : shellExecutor env args = .error e) : e ≠ "" := by
  rw [shellExecutor] at h
  split at h
  · injection h with he
    rw [← he]
    decide
  · split at h
    · injection h with he
      rw [← he]
      decide
    · dsimp only at h
      split at h
      · injection h with he
        rw [← he]
        exact str_append_ne_empty _ _ (str_append_ne_empty _ _ (by decide))
      · injection h with he
        rw [← he]
        exact str_append_ne_empty _ _ (by decide)
      · exact Except.noConfusion h

/-- Every default executor fails only with a non-empty error string. -/
theorem defaultExec_error_ne :
    ∀ tool ∈ defaultRegistry, ∀ env args e,
      tool.exec env args = .error e → e ≠ "" := by
  intro tool htool
  fin_cases htool
  · exact dateExec_error_ne
  · exact lsExec_error_ne
  · exact catExec_error_ne
  · exact pwdExec_error_ne
  · exact psExec_error_ne
  · exact curlExec_error_ne
  · exact whichExec_error_ne
  · exact echoExec_error_ne
  · exact envExec_error_ne
  · exact headExec_error_ne
  · exact tailExec_error_ne
  · exact dfExec_error_ne
  · exact shellExecutor_error_ne

/-- Claim C7 (confirmed): on the default registry, Execute always returns a
result keyed to the originating call's id and name that carries either the
executor's output, or a non-empty error (unknown tool names included);
being a total function, it never raises past the boundary. -/
theorem execute_result_discipline (env : ToolEnv) (call : AgentToolCall) :
    (Execute defaultRegistry env call).toolCallID = call.id ∧
    (Execute defaultRegistry env call).name = call.name ∧
    ((Execute defaultRegistry env call).error ≠ "" ∧
      (Execute defaultRegistry env call).output = "" ∨
     (Execute defaultRegistry env call).error = "" ∧
      ∃ tool, lookupTool defaultRegistry call.name = some tool ∧
        tool.exec env call.args = .ok (Execute defaultRegistry env call).output) := by
  cases hl : lookupTool defaultRegistry call.name with
  | none =>
    have hE : Execute defaultRegistry env call =
        ⟨call.id, call.name, "", "unknown tool: " ++ call.name⟩ := by
      simp only [Execute, hl]
    rw [hE]
    exact ⟨rfl, rfl, Or.inl ⟨str_append_ne_empty _ _ (by decide), rfl⟩⟩
  | some tool =>
    have htool : tool ∈ defaultRegistry := by
      have hfind : defaultRegistry.find? (fun t => t.name == call.name) = some tool := hl
      exact List.mem_of_find?_eq_some hfind
    cases hx : tool.exec env call.args with
    | error e =>
      have hE : Execute defaultRegistry env call = ⟨call.id, call.name, "", e⟩ := by
        simp only [Execute, hl, hx]
      rw [hE]
      exact ⟨rfl, rfl, Or.inl ⟨defaultExec_error_ne tool htool env call.args e hx, rfl⟩⟩
    | ok output =>
      have hE : Execute defaultRegistry env call = ⟨call.id, call.name, output, ""⟩ := by
        simp only [Execute, hl, hx]
      rw [hE]
      exact ⟨rfl, rfl, Or.inr ⟨rfl, tool, rfl, hx⟩⟩

end Igent
